import Mathlib

/-!
Verification of the attachments-downloader repository.

Shallow embedding of the core of the program:
* the attachment classifier predicates (`hasAttachments`, `isJsonAttachment`,
  `hasJsonAttachments`, ...) from the orchestrator script;
* the paginated date-window collection loop (`getEmailsInDateRange`);
* the two-pass orchestrator (`main`: pre-scan counting, then download pass);
* the attachment materializer (`downloadAttachments`), in flat mode and in
  per-message-subfolder mode over an explicit little file-system state;
* the credential lifecycle (`loadSavedCredentialsIfExist`, `saveCredentials`,
  `getAccessToken` with its single-shot callback listener).

JavaScript truthiness of the optional string fields (`part.filename`,
`part.body.attachmentId`: `undefined` and `""` are both falsy) is modelled by
`optTruthy` on `Option String`.  Paths are lists of components, mirroring
`path.join`.  Network and file-system effects are modelled by explicit
environments (success/failure oracles) and explicit state.
-/

namespace AttachmentsDownloader

/-- JS truthiness of an optional string field: absent (`undefined`) and the
empty string are falsy, every other string is truthy. -/
def optTruthy : Option String → Bool
  | none => false
  | some s => s ≠ ""

/-- `s.toLowerCase()` of JS, on code points (all filenames involved are ASCII). -/
def strToLower (s : String) : String := String.mk (s.data.map Char.toLower)

/-- `s.endsWith(t)` of JS, as a suffix test on the code-point sequence. -/
def strEndsWith (s t : String) : Bool := t.data.isSuffixOf s.data

/-- `part.body` of a Gmail message part: only the `attachmentId` field is read. -/
structure PartBody where
  attachmentId : Option String
  deriving DecidableEq, Repr

/-- A Gmail message part: `{ filename?, body: { attachmentId? } }`. -/
structure Part where
  filename : Option String
  body : PartBody
  deriving DecidableEq, Repr

/-- `email.payload`: `parts` may be absent (`undefined`). -/
structure EmailPayload where
  parts : Option (List Part)
  deriving DecidableEq, Repr

/-- A fetched email (`MessageDetail`): only `payload.parts` is read by the core. -/
structure Email where
  payload : EmailPayload
  deriving DecidableEq, Repr

/-- The parts list, `[]` when `payload.parts` is absent. -/
def partsOf (email : Email) : List Part := email.payload.parts.getD []

/-- Source `hasAttachments`: some part has a truthy `filename` and a truthy
`body.attachmentId`. -/
def hasAttachments (email : Email) : Bool :=
  match email.payload.parts with
  | none => false
  | some parts => parts.any fun part => optTruthy part.filename && optTruthy part.body.attachmentId

/-- Source `isJsonAttachment`: truthy filename whose lower-casing ends in `.json`. -/
def isJsonAttachment (part : Part) : Bool :=
  match part.filename with
  | none => false
  | some f => f ≠ "" && strEndsWith (strToLower f) ".json"

/-- Source `isPdfAttachment`: truthy filename whose lower-casing ends in `.pdf`. -/
def isPdfAttachment (part : Part) : Bool :=
  match part.filename with
  | none => false
  | some f => f ≠ "" && strEndsWith (strToLower f) ".pdf"

/-- Source `hasJsonAttachments`: some part is a JSON attachment with a truthy
`attachmentId`. -/
def hasJsonAttachments (email : Email) : Bool :=
  match email.payload.parts with
  | none => false
  | some parts => parts.any fun part => isJsonAttachment part && optTruthy part.body.attachmentId

/-- A part qualifies for download: `part.filename && part.body.attachmentId`. -/
def qualifying (part : Part) : Bool :=
  optTruthy part.filename && optTruthy part.body.attachmentId

/-! ## Paths

`path.join` concatenates components; a path is a list of components.  The
repository root is `["repo"]`; the orchestrator script lives at the root, so
its `__dirname` is `["repo"]`, while `src/utils.js` has `__dirname`
`["repo", "src"]`. -/

abbrev FilePath' := List String

/-- `__dirname` of the orchestrator script (repository root). -/
def scriptDir : FilePath' := ["repo"]

/-- `__dirname` of `src/utils.js`. -/
def utilsDir : FilePath' := ["repo", "src"]

/-- `config.baseAttachmentsDir = path.join(__dirname, 'attachments')` in the
orchestrator. -/
def baseAttachmentsDir : FilePath' := scriptDir ++ ["attachments"]

/-- `yearMonthDir = path.join(config.baseAttachmentsDir, year-month)`;
`config.attachmentsDir` is set to it. -/
def yearMonthDir (ym : String) : FilePath' := baseAttachmentsDir ++ [ym]

/-- The directory `createSubfolder`/`removeSubfolder` resolve:
`path.join(__dirname, 'attachments', subfolderName)` with `__dirname` the
utils module's own directory. -/
def subfolderPath (subfolderName : String) : FilePath' :=
  utilsDir ++ ["attachments", subfolderName]

/-- Flat-mode filename: `` `${emailId}_${part.filename}` ``. -/
def flatFilename (emailId fname : String) : String := emailId ++ "_" ++ fname

/-! ## Date-window collection (`getEmailsInDateRange`)

One response of `gmail.users.messages.list`: a page of message ids and an
optional `nextPageToken`.  The loop body is modelled per consumed response;
a thrown page fetch is an `Except.error`. -/

/-- One list-API response page. -/
structure ListPage where
  messages : List String
  nextPageToken : Option String
  deriving DecidableEq, Repr

/-- The loop's continue condition after consuming a page:
`pageToken = response.data.nextPageToken; hasMore = !!pageToken;
if (messages.length === 0) hasMore = false`. -/
def continuesAfter (page : ListPage) : Bool :=
  page.nextPageToken.isSome && !page.messages.isEmpty

/-- The `while (hasMore)` loop of `getEmailsInDateRange` over the finite
sequence of responses the server would give, starting from page token `tok`.
Returns the trace of page tokens passed to the successive list calls and the
accumulated message ids.  A failed fetch (`Except.error`) is caught: it is
logged and sets `hasMore = false`, so the accumulated ids are returned. -/
def collectRun (tok : Option String) :
    List (Except String ListPage) → List (Option String) × List String
  | [] => ([], [])
  | Except.error _ :: _ => ([tok], [])
  | Except.ok page :: rest =>
    if continuesAfter page then
      let r := collectRun page.nextPageToken rest
      (tok :: r.1, page.messages ++ r.2)
    else ([tok], page.messages)

/-- `getEmailsInDateRange` starts with `pageToken = null`. -/
def getEmailsInDateRange (responses : List (Except String ListPage)) :
    List (Option String) × List String :=
  collectRun none responses

/-- Modelled from the spec: the pages consumed by collection, "up to and
including" the first page that yields no continuation cursor or an empty
result page. -/
def specPagesTaken : List ListPage → List ListPage
  | [] => []
  | page :: rest =>
    if continuesAfter page then page :: specPagesTaken rest else [page]

/-! ## The two-pass orchestrator (`main`) and the flat materializer

The network is an explicit environment: `emailOf` is `getEmailById` (the same
function is called in both passes), `fetchOk` tells whether fetching (and
writing) a given attachment of a given email succeeds. -/

/-- The run's environment: per-message detail fetch and per-attachment
fetch/write success. -/
structure RunWorld where
  emailOf : String → Except String Email
  fetchOk : String → String → Bool

/-- Pre-scan contribution of one email as in `main`'s first loop:
`totalAttachments += fullEmail.payload.parts.filter(part => part.filename
&& part.body.attachmentId).length` guarded by `hasJsonAttachments`. -/
def qualifyingCount (email : Email) : Nat :=
  ((partsOf email).filter qualifying).length

/-- One step of `main`'s first loop on the accumulator
`(emailsWithJsonAttachments, totalAttachments)`; a failed detail fetch is
caught and skipped. -/
def prescanStep (w : RunWorld) (acc : Nat × Nat) (id : String) : Nat × Nat :=
  match w.emailOf id with
  | Except.error _ => acc
  | Except.ok email =>
    if hasJsonAttachments email then (acc.1 + 1, acc.2 + qualifyingCount email) else acc

/-- `main`'s first pass: fold over the message ids starting from `(0, 0)`. -/
def prescanPass (w : RunWorld) (ids : List String) : Nat × Nat :=
  ids.foldl (prescanStep w) (0, 0)

/-- `emailsWithJsonAttachments` after the pre-scan. -/
def emailsWithJson (w : RunWorld) (ids : List String) : Nat := (prescanPass w ids).1

/-- `totalAttachments` after the pre-scan (the progress bar's denominator). -/
def totalExpectedAttachments (w : RunWorld) (ids : List String) : Nat := (prescanPass w ids).2

/-- `downloadAttachments` in flat mode, counting successful writes: the loop
over `email.payload.parts` downloads every part with truthy `filename` and
`body.attachmentId` (no kind filter inside the loop), incrementing
`attachmentCount` once per successful fetch-and-write. -/
def downloadCountFlat (w : RunWorld) (emailId : String) (email : Email) : Nat :=
  if hasAttachments email = false then 0
  else
    ((partsOf email).filter qualifying).countP
      (fun part => w.fetchOk emailId (part.body.attachmentId.getD ""))

/-- The files written by `downloadAttachments` in flat mode into `dir`
(`config.attachmentsDir`): one file `dir/emailId_filename` per successfully
fetched qualifying part. -/
def downloadFilesFlat (w : RunWorld) (emailId : String) (email : Email)
    (dir : FilePath') : List FilePath' :=
  if hasAttachments email = false then []
  else
    ((partsOf email).filter qualifying).filterMap
      (fun part =>
        if w.fetchOk emailId (part.body.attachmentId.getD "") then
          some (dir ++ [flatFilename emailId (part.filename.getD "")])
        else none)

/-- Contribution of one message to the download-pass counter: `main`'s second
loop fetches the detail again (same `getEmailById`), and calls
`downloadAttachments` only when `hasJsonAttachments`; a failed detail fetch
is caught and skipped. -/
def emailContribution (w : RunWorld) (id : String) : Nat :=
  match w.emailOf id with
  | Except.error _ => 0
  | Except.ok email =>
    if hasJsonAttachments email then downloadCountFlat w id email else 0

/-- The final value of `downloadedAttachments` after the second pass. -/
def finalCounter (w : RunWorld) (ids : List String) : Nat :=
  ids.foldl (fun acc id => acc + emailContribution w id) 0

/-- The successive values of the `downloadedAttachments` counter across the
run: `0`, then its value after each processed message. -/
def counterTrajectory (w : RunWorld) (ids : List String) : List Nat :=
  List.scanl (fun acc id => acc + emailContribution w id) 0 ids

/-- All files created by the download pass (flat mode) into `dir`. -/
def runFiles (w : RunWorld) (ids : List String) (dir : FilePath') : List FilePath' :=
  ids.flatMap fun id =>
    match w.emailOf id with
    | Except.error _ => []
    | Except.ok email =>
      if hasJsonAttachments email then downloadFilesFlat w id email dir else []

/-! ## File-system state and the per-message-subfolder materializer

`config.createSubfolders = true` routes writes through `createSubfolder` /
`removeSubfolder` of `src/utils.js`.  The file system is a set of existing
directories and files (each a path). -/

/-- A little file-system state: the directories and files that exist. -/
structure FS where
  dirs : List FilePath'
  files : List FilePath'
  deriving DecidableEq, Repr

/-- `fs.existsSync` on a directory path. -/
def FS.existsDir (fs : FS) (p : FilePath') : Bool := decide (p ∈ fs.dirs)

/-- `fs.mkdirSync`. -/
def FS.mkdir (fs : FS) (p : FilePath') : FS := { fs with dirs := fs.dirs ++ [p] }

/-- `fs.writeFileSync` (overwrite keeps the single path). -/
def FS.writeFile (fs : FS) (p : FilePath') : FS :=
  if p ∈ fs.files then fs else { fs with files := fs.files ++ [p] }

/-- `fs.rmdirSync(path, { recursive: true })`: removes the directory and
everything under it. -/
def FS.rmdirRec (fs : FS) (p : FilePath') : FS :=
  { dirs := fs.dirs.filter fun d => !(p.isPrefixOf d),
    files := fs.files.filter fun f => !(p.isPrefixOf f) }

/-- `createSubfolder` of `src/utils.js`: resolve
`path.join(__dirname, 'attachments', subfolderName)`, create it only if it
does not exist, return the path. -/
def createSubfolder (subfolderName : String) (fs : FS) : FS × FilePath' :=
  let p := subfolderPath subfolderName
  (if fs.existsDir p then fs else fs.mkdir p, p)

/-- `removeSubfolder` of `src/utils.js`: if the subfolder path exists, remove
it recursively. -/
def removeSubfolder (subfolderName : String) (fs : FS) : FS :=
  let p := subfolderPath subfolderName
  if fs.existsDir p then fs.rmdirRec p else fs

/-- The body of `downloadAttachments`'s part loop in subfolder mode: a
qualifying part whose fetch succeeds is written to `emailDir/filename` and
counted; a failed fetch is caught and logged, the loop continues. -/
def subDlStep (fetchOk : String → String → Bool) (emailId : String)
    (emailDir : FilePath') (acc : FS × Nat) (part : Part) : FS × Nat :=
  if qualifying part then
    if fetchOk emailId (part.body.attachmentId.getD "") then
      (acc.1.writeFile (emailDir ++ [part.filename.getD ""]), acc.2 + 1)
    else acc
  else acc

/-- The part of `downloadAttachments` (subfolder mode) after the
no-attachments early return: create the subfolder, run the part loop, then
`if (config.createSubfolders && attachmentCount === 0 && emailDir !==
config.attachmentsDir) removeSubfolder(emailId)`. -/
def downloadAttachmentsSubBody (fetchOk : String → String → Bool) (email : Email)
    (emailId : String) (flatDir : FilePath') (fs : FS) : FS × Nat :=
  let c := createSubfolder emailId fs
  let emailDir := c.2
  let r := (partsOf email).foldl (subDlStep fetchOk emailId emailDir) (c.1, 0)
  if r.2 = 0 ∧ emailDir ≠ flatDir then (removeSubfolder emailId r.1, r.2)
  else r

/-- `downloadAttachments` with `config.createSubfolders = true`, over the
explicit file system.  `flatDir` is `config.attachmentsDir` (the year-month
directory), compared against `emailDir` in the cleanup guard exactly as the
source does.  Returns the new file system and `attachmentCount`. -/
def downloadAttachmentsSub (fetchOk : String → String → Bool) (email : Email)
    (emailId : String) (flatDir : FilePath') (fs : FS) : FS × Nat :=
  if hasAttachments email = false then (fs, 0)
  else downloadAttachmentsSubBody fetchOk email emailId flatDir fs

/-! ## Credential lifecycle (`src/drive/auth.js`)

`saveCredentials` wraps `fs.writeFileSync` in try/catch; `getAccessToken`
first probes the cached credential through `loadSavedCredentialsIfExist` and
only on failure binds the listener, launches the browser and exchanges the
callback code for tokens. -/

/-- Outcome of the underlying `fs.writeFileSync` call. -/
inductive WriteResult
  | ok
  | ioError
  deriving DecidableEq, Repr

/-- What the caller of `saveCredentials` observes: whether an exception
propagated to it, and whether an error was logged to the console. -/
structure SaveObs where
  raised : Bool
  loggedError : Bool
  deriving DecidableEq, Repr

/-- `saveCredentials`: `try { fs.writeFileSync(...) } catch (err)
{ console.error(...) }` — the catch swallows the failure and the function
returns normally in both cases. -/
def saveCredentials : WriteResult → SaveObs
  | WriteResult.ok => ⟨false, false⟩
  | WriteResult.ioError => ⟨false, true⟩

/-- Observable authorization-flow actions. -/
inductive AuthAction
  | probeCall
  | bindListener
  | launchBrowser
  | tokenExchange
  deriving DecidableEq, Repr

/-- The single expected inbound callback request. -/
inductive CallbackReq
  | cbError (e : String)
  | cbCode (c : String)
  | cbOther
  deriving DecidableEq, Repr

/-- How `getAccessToken`'s promise settles. -/
inductive AuthOutcome
  | resolved
  | rejected (msg : String)
  | pendingForever
  deriving DecidableEq, Repr

/-- The environment of one `getAccessToken` call. -/
structure AuthEnv where
  tokenFileExists : Bool
  tokenFileParses : Bool
  probeOk : Bool
  bindOk : Bool
  callback : CallbackReq
  exchangeOk : Bool
  deriving DecidableEq, Repr

/-- Result of a `getAccessToken` call: settlement, the trace of actions
performed, and the environment as left for a subsequent call. -/
structure AuthResult where
  outcome : AuthOutcome
  actions : List AuthAction
  envAfter : AuthEnv
  deriving DecidableEq, Repr

/-- `loadSavedCredentialsIfExist`: if the token file exists and parses, set
the credentials and issue the one-page probe (`drive.files.list({pageSize:
1})`); return whether the probe succeeded.  A read/parse throw is caught by
the outer try and reported as `false` (no probe made). -/
def loadSavedCredentialsIfExist (env : AuthEnv) : Bool × List AuthAction :=
  if env.tokenFileExists then
    if env.tokenFileParses then (env.probeOk, [AuthAction.probeCall])
    else (false, [])
  else (false, [])

/-- `getAccessToken`: return at once if valid saved credentials loaded;
otherwise bind the callback listener on port 3000 (rejecting on bind
failure), launch the browser, and settle from the callback request, doing
the token exchange only on a `code` callback.  A successful exchange saves
the tokens, so the token file exists and parses afterwards. -/
def getAccessToken (env : AuthEnv) : AuthResult :=
  let l := loadSavedCredentialsIfExist env
  if l.1 then ⟨AuthOutcome.resolved, l.2, env⟩
  else if env.bindOk = false then
    ⟨AuthOutcome.rejected "EADDRINUSE", l.2 ++ [AuthAction.bindListener], env⟩
  else
    match env.callback with
    | CallbackReq.cbError e =>
      ⟨AuthOutcome.rejected e,
        l.2 ++ [AuthAction.bindListener, AuthAction.launchBrowser], env⟩
    | CallbackReq.cbCode _ =>
      if env.exchangeOk then
        ⟨AuthOutcome.resolved,
          l.2 ++ [AuthAction.bindListener, AuthAction.launchBrowser, AuthAction.tokenExchange],
          { env with tokenFileExists := true, tokenFileParses := true }⟩
      else
        ⟨AuthOutcome.rejected "token exchange failed",
          l.2 ++ [AuthAction.bindListener, AuthAction.launchBrowser, AuthAction.tokenExchange],
          env⟩
    | CallbackReq.cbOther =>
      ⟨AuthOutcome.pendingForever,
        l.2 ++ [AuthAction.bindListener, AuthAction.launchBrowser], env⟩

/-! ## The callback listener as a state machine

The HTTP server created inside `getAccessToken`, processing a sequence of
inbound requests: `server.close()` is called before each settlement, and a
closed server refuses requests; `resolve`/`reject` on an already settled
promise is a no-op. -/

/-- How the pending promise settles. -/
inductive Settle
  | sResolved
  | sRejected (msg : String)
  deriving DecidableEq, Repr

/-- State of the callback listener and its pending promise. -/
structure Listener where
  closed : Bool
  settled : Option Settle
  exchanges : Nat
  deriving DecidableEq, Repr

/-- The listener's initial state. -/
def initListener : Listener := ⟨false, none, 0⟩

/-- Observable fate of one inbound request. -/
inductive ReqOutcome
  | refused
  | handled
  deriving DecidableEq, Repr

/-- Promise settlement: a second `resolve`/`reject` is a no-op. -/
def promiseSettle (cur : Option Settle) (s : Settle) : Option Settle :=
  match cur with
  | some x => some x
  | none => some s

/-- One inbound request against the server handler: a closed server refuses
it; an `error` query settles rejected and closes; a `code` query runs the
token exchange, then settles (resolved or rejected) and closes; a request
with neither parameter falls through the handler without responding,
closing, or settling. -/
def handleRequest (exchangeOk : String → Bool) (st : Listener) (r : CallbackReq) :
    Listener × ReqOutcome :=
  if st.closed then (st, ReqOutcome.refused)
  else
    match r with
    | CallbackReq.cbError e =>
      ({ st with closed := true, settled := promiseSettle st.settled (Settle.sRejected e) },
        ReqOutcome.handled)
    | CallbackReq.cbCode c =>
      if exchangeOk c then
        (⟨true, promiseSettle st.settled Settle.sResolved, st.exchanges + 1⟩, ReqOutcome.handled)
      else
        (⟨true, promiseSettle st.settled (Settle.sRejected "token"), st.exchanges + 1⟩,
          ReqOutcome.handled)
    | CallbackReq.cbOther => (st, ReqOutcome.handled)

/-- Process a sequence of inbound requests, returning the final state and the
per-request outcomes. -/
def runListener (exchangeOk : String → Bool) (st : Listener) :
    List CallbackReq → Listener × List ReqOutcome
  | [] => (st, [])
  | r :: rs =>
    let p := handleRequest exchangeOk st r
    let q := runListener exchangeOk p.1 rs
    (q.1, p.2 :: q.2)

/-! ## The end-to-end scenario of the spec (window = April 2025) -/

/-- A part with a filename and an attachment id. -/
def mkPart (f a : String) : Part := ⟨some f, ⟨some a⟩⟩

/-- Scenario message 1: two `.json` attachments and one `.pdf` attachment. -/
def scenarioEmail1 : Email :=
  ⟨⟨some [mkPart "a.json" "att1", mkPart "b.json" "att2", mkPart "c.pdf" "att3"]⟩⟩

/-- Scenario message 2: zero attachments. -/
def scenarioEmail2 : Email := ⟨⟨none⟩⟩

/-- Scenario message 3: one `.json` attachment. -/
def scenarioEmail3 : Email := ⟨⟨some [mkPart "d.json" "att4"]⟩⟩

/-- The scenario's environment: the three messages returned by the collector,
every attachment fetch succeeding. -/
def scenarioWorld : RunWorld :=
  { emailOf := fun id =>
      if id = "m1" then Except.ok scenarioEmail1
      else if id = "m2" then Except.ok scenarioEmail2
      else if id = "m3" then Except.ok scenarioEmail3
      else Except.error "no such message",
    fetchOk := fun _ _ => true }

/-- The three message ids returned by the date-window collection. -/
def scenarioIds : List String := ["m1", "m2", "m3"]

/-- The scenario's destination directory (April 2025). -/
def scenarioDir : FilePath' := yearMonthDir "2025-04"

/-! # Theorems -/

/-- C1 counterexample.  In the end-to-end scenario the code produces
`emailsWithJsonAttachments = 2` but downloads 4 attachments and creates 4
files, not 3: the `.pdf` attachment of message 1 is downloaded too, because
the kind filter guards which emails are processed, not which parts are
downloaded.  This refutes `totalAttachmentsDownloaded = 3`, "the .pdf
excluded by the kind filter", and "exactly three files are created". -/
theorem endToEnd_counterexample :
    emailsWithJson scenarioWorld scenarioIds = 2 ∧
    ¬ finalCounter scenarioWorld scenarioIds = 3 ∧
    ¬ (runFiles scenarioWorld scenarioIds scenarioDir).length = 3 ∧
    scenarioDir ++ ["m1_c.pdf"] ∈ runFiles scenarioWorld scenarioIds scenarioDir := by
  decide

/-- C1 (amended): in the end-to-end scenario the run produces
`emailsWithJsonAttachments = 2` and `totalAttachmentsDownloaded = 4` — the
`.pdf` is not excluded, since the kind filter selects which emails are
processed, not which attachments are downloaded — and exactly four files are
created under the April-2025 destination directory. -/
theorem endToEnd_amended :
    emailsWithJson scenarioWorld scenarioIds = 2 ∧
    finalCounter scenarioWorld scenarioIds = 4 ∧
    runFiles scenarioWorld scenarioIds scenarioDir =
      [scenarioDir ++ ["m1_a.json"], scenarioDir ++ ["m1_b.json"],
       scenarioDir ++ ["m1_c.pdf"], scenarioDir ++ ["m3_d.json"]] := by
  decide

/-- C3: on a failed durable write, `saveCredentials` swallows the exception —
the caller observes exactly the same normal completion as on success (nothing
is raised, no failure is reported back); only a console log distinguishes the
two.  The code therefore silently reports success to its caller on a failed
write, contradicting the claim. -/
theorem saveCredentials_swallows_failure :
    (saveCredentials WriteResult.ioError).raised = false ∧
    (saveCredentials WriteResult.ok).raised = false ∧
    (saveCredentials WriteResult.ioError).loggedError = true := by
  decide

/-- C9: under the flat destination policy, two distinct message ids with the
same part filename produce distinct prefixed filenames and distinct
destination paths — neither download overwrites the other. -/
theorem flat_collision_safe (A B f : String) (dir : FilePath') (h : A ≠ B) :
    flatFilename A f ≠ flatFilename B f ∧
    dir ++ [flatFilename A f] ≠ dir ++ [flatFilename B f] := by
  have key : flatFilename A f ≠ flatFilename B f := by
    intro he
    apply h
    have hd := congrArg String.data he
    rw [flatFilename, flatFilename, String.data_append, String.data_append,
      String.data_append, String.data_append] at hd
    exact String.ext (List.append_cancel_right (List.append_cancel_right hd))
  refine ⟨key, fun he => key ?_⟩
  have := List.append_cancel_left he
  simpa using this

/-- C9 witness: concrete ids `A`, `B` and part filename `report.pdf`. -/
theorem flat_collision_safe_witness :
    ("A" : String) ≠ "B" ∧
    (flatFilename "A" "report.pdf" ≠ flatFilename "B" "report.pdf" ∧
      scenarioDir ++ [flatFilename "A" "report.pdf"] ≠
        scenarioDir ++ [flatFilename "B" "report.pdf"]) :=
  ⟨by decide, flat_collision_safe "A" "B" "report.pdf" scenarioDir (by decide)⟩

/-- C10: the per-message-subfolder policy writes under
`utilsDir/attachments/<emailId>` (resolved by `createSubfolder` against the
utils module's own directory), which never lies under the year-month
directory `scriptDir/attachments/<YYYY-MM>` used by the flat policy; the two
policies use different base directories. -/
theorem subfolder_base_dir (ym emailId fname : String) :
    (yearMonthDir ym).isPrefixOf (subfolderPath emailId ++ [fname]) = false ∧
    subfolderPath emailId ≠ yearMonthDir ym ∧
    utilsDir ++ ["attachments"] ≠ baseAttachmentsDir := by
  refine ⟨rfl, ?_, by decide⟩
  intro h
  simp [subfolderPath, yearMonthDir, baseAttachmentsDir, scriptDir, utilsDir] at h

/-- The collection loop on an all-successful response sequence: the tokens
passed and the ids accumulated, for an arbitrary starting token. -/
theorem collectRun_ok_spec (tok : Option String) (pages : List ListPage) :
    collectRun tok (pages.map Except.ok) =
      ((tok :: pages.map ListPage.nextPageToken).take (specPagesTaken pages).length,
        ((specPagesTaken pages).map ListPage.messages).flatten) := by
  induction pages generalizing tok with
  | nil => simp [collectRun, specPagesTaken]
  | cons p rest ih =>
    by_cases h : continuesAfter p = true
    · simp only [List.map_cons, collectRun, h, if_true, specPagesTaken,
        ih p.nextPageToken, List.length_cons, List.take_succ_cons, List.map_cons,
        List.flatten_cons]
    · simp only [Bool.not_eq_true] at h
      simp [collectRun, specPagesTaken, h]

/-- `specPagesTaken` never consumes more pages than the server has. -/
theorem specPagesTaken_length_le (pages : List ListPage) :
    (specPagesTaken pages).length ≤ pages.length := by
  induction pages with
  | nil => simp [specPagesTaken]
  | cons p rest ih =>
    by_cases h : continuesAfter p = true
    · simpa [specPagesTaken, h] using ih
    · simp only [Bool.not_eq_true] at h
      simp [specPagesTaken, h]

/-- C5: for every finite sequence of successful list responses, the
date-window collection loop terminates after consuming exactly the pages up
to and including the first page with no continuation cursor or an empty
result page; its result is the concatenation of those pages' id lists, and
each call after the first is passed the previous response's continuation
cursor (the first call is passed `null`). -/
theorem collect_pagination (pages : List ListPage) :
    (getEmailsInDateRange (pages.map Except.ok)).2 =
      ((specPagesTaken pages).map ListPage.messages).flatten ∧
    (getEmailsInDateRange (pages.map Except.ok)).1 =
      (none :: pages.map ListPage.nextPageToken).take (specPagesTaken pages).length ∧
    (specPagesTaken pages).length ≤ pages.length := by
  rw [getEmailsInDateRange, collectRun_ok_spec]
  exact ⟨rfl, rfl, specPagesTaken_length_le pages⟩

/-- The collection loop on a response sequence whose first failure comes
after a run of continuing pages: the accumulated ids are exactly those of
the successful pages, for an arbitrary starting token. -/
theorem collectRun_error_spec (tok : Option String) (pages : List ListPage)
    (e : String) (rest : List (Except String ListPage))
    (h : ∀ p ∈ pages, continuesAfter p = true) :
    (collectRun tok (pages.map Except.ok ++ Except.error e :: rest)).2 =
      (pages.map ListPage.messages).flatten := by
  induction pages generalizing tok with
  | nil => simp [collectRun]
  | cons p ps ih =>
    have hp : continuesAfter p = true := h p (List.mem_cons_self p ps)
    have hps : ∀ q ∈ ps, continuesAfter q = true :=
      fun q hq => h q (List.mem_cons_of_mem p hq)
    simp only [List.map_cons, List.cons_append, collectRun, hp, if_true,
      List.append_eq, ih p.nextPageToken hps, List.flatten_cons]

/-- C6: if a page fetch fails during date-window collection, the collection
stops at once and returns exactly the message ids accumulated from the
previously successful pages; the failure is absorbed by the catch branch
(`collectRun` returns a plain value — nothing is re-thrown to the caller),
and the remaining responses are never requested. -/
theorem collect_aborts_on_failure (pages : List ListPage) (e : String)
    (rest : List (Except String ListPage))
    (h : ∀ p ∈ pages, continuesAfter p = true) :
    (getEmailsInDateRange (pages.map Except.ok ++ Except.error e :: rest)).2 =
      (pages.map ListPage.messages).flatten :=
  collectRun_error_spec none pages e rest h

/-- C6 witness: one successful page of one id, then a failing fetch; the
result is that page's id list. -/
theorem collect_aborts_on_failure_witness :
    (∀ p ∈ [ListPage.mk ["x1"] (some "t")], continuesAfter p = true) ∧
    (getEmailsInDateRange
        ([ListPage.mk ["x1"] (some "t")].map Except.ok ++
          Except.error "network down" :: [Except.ok (ListPage.mk ["y1"] none)])).2 =
      ([ListPage.mk ["x1"] (some "t")].map ListPage.messages).flatten :=
  ⟨by decide,
    collect_aborts_on_failure [ListPage.mk ["x1"] (some "t")] "network down"
      [Except.ok (ListPage.mk ["y1"] none)] (by decide)⟩

/-- Pre-scan contribution of one message id to the emails-with-JSON count. -/
def emailJsonFlag (w : RunWorld) (id : String) : Nat :=
  match w.emailOf id with
  | Except.error _ => 0
  | Except.ok email => if hasJsonAttachments email then 1 else 0

/-- Pre-scan contribution of one message id to `totalAttachments`. -/
def prescanContribution (w : RunWorld) (id : String) : Nat :=
  match w.emailOf id with
  | Except.error _ => 0
  | Except.ok email => if hasJsonAttachments email then qualifyingCount email else 0

/-- One pre-scan step adds the two per-message contributions componentwise. -/
theorem prescanStep_eq (w : RunWorld) (acc : Nat × Nat) (id : String) :
    prescanStep w acc id = (acc.1 + emailJsonFlag w id, acc.2 + prescanContribution w id) := by
  unfold prescanStep emailJsonFlag prescanContribution
  cases w.emailOf id with
  | error e => simp
  | ok email =>
    by_cases h : hasJsonAttachments email = true
    · simp [h]
    · simp only [Bool.not_eq_true] at h
      simp [h]

/-- The pre-scan fold from an arbitrary accumulator is componentwise the
starting value plus the sums of the per-message contributions. -/
theorem prescan_foldl (w : RunWorld) (ids : List String) (a b : Nat) :
    ids.foldl (prescanStep w) (a, b) =
      (a + (ids.map (emailJsonFlag w)).sum, b + (ids.map (prescanContribution w)).sum) := by
  induction ids generalizing a b with
  | nil => simp
  | cons i is ih =>
    rw [List.foldl_cons, prescanStep_eq, ih]
    simp [add_assoc]

/-- `totalAttachments` after the pre-scan is the sum of the per-message
pre-scan contributions. -/
theorem totalExpected_eq_sum (w : RunWorld) (ids : List String) :
    totalExpectedAttachments w ids = (ids.map (prescanContribution w)).sum := by
  rw [totalExpectedAttachments, prescanPass, prescan_foldl]
  simp

/-- A left fold that only adds equals the start plus the sum of the
increments. -/
theorem foldl_add_eq_sum (f : String → Nat) (ids : List String) (n : Nat) :
    ids.foldl (fun acc id => acc + f id) n = n + (ids.map f).sum := by
  induction ids generalizing n with
  | nil => simp
  | cons i is ih => simp [List.foldl_cons, ih, add_assoc]

/-- No message downloads more attachments than the pre-scan counted for it:
the download pass fetches the same detail (`w.emailOf`), is guarded by the
same `hasJsonAttachments`, and counts at most one success per qualifying
part. -/
theorem emailContribution_le (w : RunWorld) (id : String) :
    emailContribution w id ≤ prescanContribution w id := by
  unfold emailContribution prescanContribution
  cases w.emailOf id with
  | error e => simp
  | ok email =>
    by_cases h : hasJsonAttachments email = true
    · simp only [h, if_true]
      unfold downloadCountFlat qualifyingCount
      by_cases ha : hasAttachments email = false
      · simp [ha]
      · simp only [ha, if_false]
        exact List.countP_le_length _
    · simp only [Bool.not_eq_true] at h
      simp [h]

/-- The head of a `scanl` is its starting value. -/
theorem head?_scanl (f : Nat → String → Nat) (b : Nat) (l : List String) :
    (List.scanl f b l).head? = some b := by
  cases l <;> simp [List.scanl_nil, List.scanl_cons]

/-- A `scanl` that only adds is a non-decreasing chain. -/
theorem chain_le_scanl (f : String → Nat) (n : Nat) (ids : List String) :
    List.Chain' (· ≤ ·) (List.scanl (fun acc id => acc + f id) n ids) := by
  induction ids generalizing n with
  | nil => simp [List.scanl_nil]
  | cons i is ih =>
    rw [List.scanl_cons, List.singleton_append, List.chain'_cons']
    refine ⟨?_, ih (n + f i)⟩
    intro y hy
    rw [head?_scanl] at hy
    simp only [Option.mem_def, Option.some.injEq] at hy
    subst hy
    exact Nat.le_add_right n (f i)

/-- C8: across every run, the `downloadedAttachments` counter is
non-decreasing (its successive values form a `≤`-chain) and its final value
never exceeds `totalAttachments` computed by the pre-scan pass over the same
message set and environment. -/
theorem progress_monotone (w : RunWorld) (ids : List String) :
    List.Chain' (· ≤ ·) (counterTrajectory w ids) ∧
    finalCounter w ids ≤ totalExpectedAttachments w ids := by
  constructor
  · exact chain_le_scanl (emailContribution w) 0 ids
  · rw [finalCounter, foldl_add_eq_sum, totalExpected_eq_sum]
    simpa using List.sum_le_sum fun i _ => emailContribution_le w i

/-- C4: with a valid cached credential (token file present, parsable, probe
succeeding), `getAccessToken` returns successfully performing only the cheap
probe, leaves the environment unchanged, and a second call in succession
does the same: neither call binds the listener, launches the browser, or
exchanges a token. -/
theorem ensureAuthorized_idempotent (env : AuthEnv)
    (h1 : env.tokenFileExists = true) (h2 : env.tokenFileParses = true)
    (h3 : env.probeOk = true) :
    (getAccessToken env).outcome = AuthOutcome.resolved ∧
    (getAccessToken env).actions = [AuthAction.probeCall] ∧
    (getAccessToken (getAccessToken env).envAfter).outcome = AuthOutcome.resolved ∧
    (getAccessToken (getAccessToken env).envAfter).actions = [AuthAction.probeCall] ∧
    AuthAction.bindListener ∉ (getAccessToken (getAccessToken env).envAfter).actions ∧
    AuthAction.launchBrowser ∉ (getAccessToken (getAccessToken env).envAfter).actions ∧
    AuthAction.tokenExchange ∉ (getAccessToken (getAccessToken env).envAfter).actions := by
  have hg : getAccessToken env =
      ⟨AuthOutcome.resolved, [AuthAction.probeCall], env⟩ := by
    rw [getAccessToken, loadSavedCredentialsIfExist, h1, h2, h3]
    simp
  simp [hg]

/-- A concrete environment holding a valid cached credential. -/
def validCachedEnv : AuthEnv := ⟨true, true, true, true, CallbackReq.cbOther, true⟩

/-- C4 witness: the idempotence theorem at `validCachedEnv`. -/
theorem ensureAuthorized_idempotent_witness :
    validCachedEnv.tokenFileExists = true ∧ validCachedEnv.tokenFileParses = true ∧
    validCachedEnv.probeOk = true ∧
    ((getAccessToken validCachedEnv).outcome = AuthOutcome.resolved ∧
      (getAccessToken validCachedEnv).actions = [AuthAction.probeCall] ∧
      (getAccessToken (getAccessToken validCachedEnv).envAfter).outcome = AuthOutcome.resolved ∧
      (getAccessToken (getAccessToken validCachedEnv).envAfter).actions = [AuthAction.probeCall] ∧
      AuthAction.bindListener ∉ (getAccessToken (getAccessToken validCachedEnv).envAfter).actions ∧
      AuthAction.launchBrowser ∉ (getAccessToken (getAccessToken validCachedEnv).envAfter).actions ∧
      AuthAction.tokenExchange ∉ (getAccessToken (getAccessToken validCachedEnv).envAfter).actions) :=
  ⟨rfl, rfl, rfl, ensureAuthorized_idempotent validCachedEnv rfl rfl rfl⟩

/-- A closed server refuses every request without changing state. -/
theorem handleRequest_closed (ex : String → Bool) (st : Listener) (r : CallbackReq)
    (h : st.closed = true) : handleRequest ex st r = (st, ReqOutcome.refused) := by
  simp [handleRequest, h]

/-- A closed server refuses every request of a sequence, unchanged. -/
theorem runListener_closed (ex : String → Bool) (st : Listener)
    (rs : List CallbackReq) (h : st.closed = true) :
    runListener ex st rs = (st, rs.map fun _ => ReqOutcome.refused) := by
  induction rs with
  | nil => simp [runListener]
  | cons r rs ih => simp [runListener, handleRequest_closed ex st r h, ih]

/-- Every settlement happens together with `server.close()`: the invariant
"settled implies closed" is preserved by each request. -/
theorem handleRequest_inv (ex : String → Bool) (st : Listener) (r : CallbackReq)
    (h : st.settled.isSome = true → st.closed = true) :
    (handleRequest ex st r).1.settled.isSome = true →
      (handleRequest ex st r).1.closed = true := by
  by_cases hc : st.closed = true
  · simp [handleRequest, hc]
  · simp only [Bool.not_eq_true] at hc
    cases r with
    | cbError e => simp [handleRequest, hc]
    | cbCode c => by_cases hx : ex c = true <;> simp [handleRequest, hc, hx]
    | cbOther => simpa [handleRequest, hc] using h

/-- The settled-implies-closed invariant is preserved by request sequences. -/
theorem runListener_inv (ex : String → Bool) (st : Listener) (rs : List CallbackReq)
    (h : st.settled.isSome = true → st.closed = true) :
    (runListener ex st rs).1.settled.isSome = true →
      (runListener ex st rs).1.closed = true := by
  induction rs generalizing st with
  | nil => simpa [runListener] using h
  | cons r rs ih =>
    simp only [runListener]
    exact ih (handleRequest ex st r).1 (handleRequest_inv ex st r h)

/-- Listener runs compose over concatenation of request sequences. -/
theorem runListener_append (ex : String → Bool) (st : Listener)
    (rs1 rs2 : List CallbackReq) :
    runListener ex st (rs1 ++ rs2) =
      ((runListener ex (runListener ex st rs1).1 rs2).1,
        (runListener ex st rs1).2 ++ (runListener ex (runListener ex st rs1).1 rs2).2) := by
  induction rs1 generalizing st with
  | nil => simp [runListener]
  | cons r rs ih => simp [runListener, ih]

/-- C7: once a request sequence has settled the pending promise, the
listener is closed, so any subsequent HTTP request is refused: the state
(and in particular the number of token exchanges performed) never changes
again, and no second settlement can occur. -/
theorem listener_single_use (ex : String → Bool) (reqs extra : List CallbackReq)
    (h : (runListener ex initListener reqs).1.settled.isSome = true) :
    (runListener ex initListener (reqs ++ extra)).1 =
      (runListener ex initListener reqs).1 ∧
    (runListener ex initListener (reqs ++ extra)).2 =
      (runListener ex initListener reqs).2 ++ extra.map (fun _ => ReqOutcome.refused) ∧
    (runListener ex initListener (reqs ++ extra)).1.exchanges =
      (runListener ex initListener reqs).1.exchanges := by
  have hcl : (runListener ex initListener reqs).1.closed = true :=
    runListener_inv ex initListener reqs (by simp [initListener]) h
  rw [runListener_append, runListener_closed ex _ extra hcl]
  exact ⟨rfl, rfl, rfl⟩

/-- C7 witness: a successful `code` callback settles the promise; a second
`code` request afterwards is refused and triggers no second exchange. -/
theorem listener_single_use_witness :
    (runListener (fun _ => true) initListener [CallbackReq.cbCode "c"]).1.settled.isSome = true ∧
    ((runListener (fun _ => true) initListener
        ([CallbackReq.cbCode "c"] ++ [CallbackReq.cbCode "d"])).1 =
      (runListener (fun _ => true) initListener [CallbackReq.cbCode "c"]).1 ∧
    (runListener (fun _ => true) initListener
        ([CallbackReq.cbCode "c"] ++ [CallbackReq.cbCode "d"])).2 =
      (runListener (fun _ => true) initListener [CallbackReq.cbCode "c"]).2 ++
        [CallbackReq.cbCode "d"].map (fun _ => ReqOutcome.refused) ∧
    (runListener (fun _ => true) initListener
        ([CallbackReq.cbCode "c"] ++ [CallbackReq.cbCode "d"])).1.exchanges =
      (runListener (fun _ => true) initListener [CallbackReq.cbCode "c"]).1.exchanges) :=
  ⟨by decide,
    listener_single_use (fun _ => true) [CallbackReq.cbCode "c"] [CallbackReq.cbCode "d"]
      (by decide)⟩

/-- Writing a file never changes the set of directories. -/
theorem writeFile_dirs (fs : FS) (p : FilePath') : (fs.writeFile p).dirs = fs.dirs := by
  rw [FS.writeFile]
  split <;> rfl

/-- One iteration of the subfolder-mode part loop never changes the set of
directories (it only writes files and counts). -/
theorem subDlStep_dirs (fetchOk : String → String → Bool) (emailId : String)
    (emailDir : FilePath') (acc : FS × Nat) (part : Part) :
    ((subDlStep fetchOk emailId emailDir acc part).1).dirs = acc.1.dirs := by
  unfold subDlStep
  by_cases hq : qualifying part = true
  · by_cases hf : fetchOk emailId (part.body.attachmentId.getD "") = true
    · simp [hq, hf, writeFile_dirs]
    · simp [hq, hf]
  · simp [hq]

/-- The whole subfolder-mode part loop never changes the set of directories. -/
theorem subDl_foldl_dirs (fetchOk : String → String → Bool) (emailId : String)
    (emailDir : FilePath') (parts : List Part) (acc : FS × Nat) :
    ((parts.foldl (subDlStep fetchOk emailId emailDir) acc).1).dirs = acc.1.dirs := by
  induction parts generalizing acc with
  | nil => rfl
  | cons p ps ih => rw [List.foldl_cons, ih, subDlStep_dirs]

/-- `createSubfolder` returns the utils-relative subfolder path. -/
theorem createSubfolder_snd (n : String) (fs : FS) :
    (createSubfolder n fs).2 = subfolderPath n := rfl

/-- After `createSubfolder`, the subfolder exists (created now or before). -/
theorem createSubfolder_mem (n : String) (fs : FS) :
    subfolderPath n ∈ (createSubfolder n fs).1.dirs := by
  by_cases h : subfolderPath n ∈ fs.dirs <;>
    simp [createSubfolder, FS.existsDir, FS.mkdir, h]

/-- `createSubfolder` keeps every existing directory. -/
theorem createSubfolder_superset (n : String) (fs : FS) (d : FilePath')
    (hd : d ∈ fs.dirs) : d ∈ (createSubfolder n fs).1.dirs := by
  by_cases h : subfolderPath n ∈ fs.dirs <;>
    simp [createSubfolder, FS.existsDir, FS.mkdir, h, hd]

/-- A list is a prefix of itself under `isPrefixOf`. -/
theorem isPrefixOf_self (l : FilePath') : l.isPrefixOf l = true := by
  simp [List.isPrefixOf_iff_prefix]

/-- Recursive removal of `p` removes `p` itself. -/
theorem existsDir_rmdirRec_self (fs : FS) (p : FilePath') :
    (fs.rmdirRec p).existsDir p = false := by
  simp [FS.rmdirRec, FS.existsDir, List.mem_filter, isPrefixOf_self]

/-- Recursive removal of `p` keeps every directory not under `p`. -/
theorem rmdirRec_mem (fs : FS) (p d : FilePath') (hd : d ∈ fs.dirs)
    (h : p.isPrefixOf d = false) : d ∈ (fs.rmdirRec p).dirs := by
  simp [FS.rmdirRec, List.mem_filter, hd, h]

/-- After `removeSubfolder` of an existing subfolder, the subfolder is gone. -/
theorem removeSubfolder_not_exists (n : String) (fs : FS)
    (h : subfolderPath n ∈ fs.dirs) :
    (removeSubfolder n fs).existsDir (subfolderPath n) = false := by
  rw [removeSubfolder, if_pos]
  · exact existsDir_rmdirRec_self fs _
  · simpa [FS.existsDir] using h

/-- `removeSubfolder` keeps every directory not under the subfolder path. -/
theorem removeSubfolder_mem (n : String) (fs : FS) (d : FilePath')
    (hd : d ∈ fs.dirs) (h : (subfolderPath n).isPrefixOf d = false) :
    d ∈ (removeSubfolder n fs).dirs := by
  rw [removeSubfolder]
  split
  · exact rmdirRec_mem fs _ d hd h
  · exact hd

/-- C2 counterexample.  The subfolder for message `m1` pre-exists and holds a
pre-existing file `old.txt`; the message has one qualifying attachment whose
fetch fails, so zero attachments are written.  The cleanup fires anyway —
although the folder was *not* created by this call and was *not* empty — and
recursively deletes the pre-existing file.  This refutes "the cleanup fires
exactly when the folder was created for this call and ended up empty — it
does not depend on, or affect, any other message's state or pre-existing
directory contents". -/
theorem subfolderCleanup_counterexample :
    (FS.mk [utilsDir ++ ["attachments"], subfolderPath "m1"]
        [subfolderPath "m1" ++ ["old.txt"]]).existsDir (subfolderPath "m1") = true ∧
    subfolderPath "m1" ++ ["old.txt"] ∈
      (FS.mk [utilsDir ++ ["attachments"], subfolderPath "m1"]
        [subfolderPath "m1" ++ ["old.txt"]]).files ∧
    (downloadAttachmentsSub (fun _ _ => false) ⟨⟨some [mkPart "a.json" "att1"]⟩⟩ "m1"
        scenarioDir
        (FS.mk [utilsDir ++ ["attachments"], subfolderPath "m1"]
          [subfolderPath "m1" ++ ["old.txt"]])).2 = 0 ∧
    (downloadAttachmentsSub (fun _ _ => false) ⟨⟨some [mkPart "a.json" "att1"]⟩⟩ "m1"
        scenarioDir
        (FS.mk [utilsDir ++ ["attachments"], subfolderPath "m1"]
          [subfolderPath "m1" ++ ["old.txt"]])).1.files = [] ∧
    (downloadAttachmentsSub (fun _ _ => false) ⟨⟨some [mkPart "a.json" "att1"]⟩⟩ "m1"
        scenarioDir
        (FS.mk [utilsDir ++ ["attachments"], subfolderPath "m1"]
          [subfolderPath "m1" ++ ["old.txt"]])).1.dirs = [utilsDir ++ ["attachments"]] := by
  decide

/-- C2 (amended): under the per-message-subfolder policy, for a message with
at least one attachment part, if zero attachments were ultimately written
then after `downloadAttachments` returns the message's subfolder does not
exist at all — the cleanup fires whenever zero attachments were written in
this call (whether or not the folder was created by this call or held
pre-existing contents, which are removed recursively) — and every directory
not under the subfolder path is untouched. -/
theorem subfolderCleanup_amended (fetchOk : String → String → Bool) (email : Email)
    (emailId : String) (flatDir : FilePath') (fs : FS)
    (hatt : hasAttachments email = true)
    (hflat : subfolderPath emailId ≠ flatDir)
    (hzero : (downloadAttachmentsSub fetchOk email emailId flatDir fs).2 = 0) :
    ((downloadAttachmentsSub fetchOk email emailId flatDir fs).1).existsDir
        (subfolderPath emailId) = false ∧
    ∀ d ∈ fs.dirs, (subfolderPath emailId).isPrefixOf d = false →
      d ∈ ((downloadAttachmentsSub fetchOk email emailId flatDir fs).1).dirs := by
  rw [downloadAttachmentsSub, if_neg (by simp [hatt])] at hzero ⊢
  rw [downloadAttachmentsSubBody] at hzero ⊢
  simp only [createSubfolder_snd] at hzero ⊢
  by_cases hif :
      ((partsOf email).foldl (subDlStep fetchOk emailId (subfolderPath emailId))
        ((createSubfolder emailId fs).1, 0)).2 = 0 ∧ subfolderPath emailId ≠ flatDir
  · rw [if_pos hif] at hzero ⊢
    have hmem : subfolderPath emailId ∈
        ((partsOf email).foldl (subDlStep fetchOk emailId (subfolderPath emailId))
          ((createSubfolder emailId fs).1, 0)).1.dirs := by
      rw [subDl_foldl_dirs]
      exact createSubfolder_mem emailId fs
    refine ⟨removeSubfolder_not_exists emailId _ hmem, ?_⟩
    intro d hd hpre
    refine removeSubfolder_mem emailId _ d ?_ hpre
    rw [subDl_foldl_dirs]
    exact createSubfolder_superset emailId fs d hd
  · rw [if_neg hif] at hzero
    exact absurd ⟨hzero, hflat⟩ hif

/-- C2 witness: the amended theorem at a fresh file system, a one-part
message, and a failing fetch. -/
theorem subfolderCleanup_witness :
    hasAttachments ⟨⟨some [mkPart "w.json" "att9"]⟩⟩ = true ∧
    subfolderPath "w1" ≠ scenarioDir ∧
    (downloadAttachmentsSub (fun _ _ => false) ⟨⟨some [mkPart "w.json" "att9"]⟩⟩ "w1"
        scenarioDir (FS.mk [] [])).2 = 0 ∧
    (((downloadAttachmentsSub (fun _ _ => false) ⟨⟨some [mkPart "w.json" "att9"]⟩⟩ "w1"
          scenarioDir (FS.mk [] [])).1).existsDir (subfolderPath "w1") = false ∧
      ∀ d ∈ (FS.mk [] []).dirs, (subfolderPath "w1").isPrefixOf d = false →
        d ∈ ((downloadAttachmentsSub (fun _ _ => false) ⟨⟨some [mkPart "w.json" "att9"]⟩⟩ "w1"
            scenarioDir (FS.mk [] [])).1).dirs) :=
  ⟨by decide, by decide, by decide,
    subfolderCleanup_amended (fun _ _ => false) ⟨⟨some [mkPart "w.json" "att9"]⟩⟩ "w1"
      scenarioDir (FS.mk [] []) (by decide) (by decide) (by decide)⟩

end AttachmentsDownloader
